import Mathlib

/- Shallow embedding of johanlindfors/iso-rust (src/main.rs).

   Modelling conventions:
   * f32 values are modelled as exact rationals (ℚ).  Every floating-point
     operation the program performs on the values the claims are about
     (integer-valued sums, differences and halvings of small grid
     coordinates, all far inside the range where f32 is exact) is exact,
     so the rational semantics coincides with the f32 semantics there.
   * i32 / usize values are modelled as ℤ / ℕ; no arithmetic in the
     program comes anywhere near the machine-integer bounds, so no
     wrap-around is modelled.
   * Rust's `as i32` cast of an f32 truncates toward zero; Rust integer
     division `/` also truncates toward zero and is modelled by Int.tdiv.
   * `HashMap<i32, _>` is modelled as an association list; the indexing
     operation `map[&k]`, which panics when the key is absent, is
     modelled as an Option-valued lookup where `none` stands for the
     panic.  A frame whose rendering panics is modelled as `none`.
   * File reading, JSON parsing (serde) and texture loading are boundary
     code: the embedding of `Map::from_json` takes the already-parsed
     `MapData` and models `Texture::new` as a handle carrying the path it
     was loaded from. -/

namespace IsoRust

/-- Model of tetra's `Vec2<T>`: a plain pair of coordinates. -/
structure Vec2 (α : Type) where
  x : α
  y : α
deriving DecidableEq, Repr

/-- Model of `Vec2::new`. -/
def Vec2.new {α : Type} (x y : α) : Vec2 α := ⟨x, y⟩

/-- Model of tetra's `graphics::Rectangle` (f32 fields, modelled as ℚ). -/
structure Rectangle where
  x : ℚ
  y : ℚ
  width : ℚ
  height : ℚ
deriving DecidableEq, Repr

/-- Model of `Rectangle::new`. -/
def Rectangle.new (x y width height : ℚ) : Rectangle := ⟨x, y, width, height⟩

/-- Model of a loaded tetra `Texture`: a handle identified by the path the
image was loaded from (`Texture::new(ctx, path)`, success case). -/
structure Texture where
  path : String
deriving DecidableEq, Repr

/-- Model of `Texture::new` (success case). -/
def Texture.new (path : String) : Texture := ⟨path⟩

/-- Model of `Texture::clone`: cloning the handle shares the same texture. -/
def Texture.clone (t : Texture) : Texture := t

/-- Model of tetra's `Color` (rgb components). -/
structure Color where
  r : ℚ
  g : ℚ
  b : ℚ
deriving DecidableEq, Repr

/-- Model of `Color::rgb`. -/
def Color.rgb (r g b : ℚ) : Color := ⟨r, g, b⟩

/-- Model of the `Point` struct of main.rs (i32 fields). -/
structure Point where
  x : ℤ
  y : ℤ
deriving DecidableEq, Repr

/-- Model of the `TileData` struct of main.rs: one entry of the map
description's `tiles` mapping (a clip rectangle and an origin offset). -/
structure TileData where
  clip : Rectangle
  origin : Point
deriving DecidableEq, Repr

/-- Model of the `MapData` struct of main.rs: the parsed JSON map
description.  The `HashMap<i32, TileData>` is an association list, and the
fixed-size layer array `[[i32; 6]; 6]` is a function `Fin 6 → Fin 6 → ℤ`
(first index row, second index column). -/
structure MapData where
  image : String
  tiles : List (ℤ × TileData)
  width : ℕ
  height : ℕ
  map : Fin 6 → Fin 6 → ℤ

/-- Model of `const ISO_WIDTH: f32 = 64.0` (the f32 literal `64.0` is the
rational `64`; integer numerals are used so that proofs can evaluate). -/
def ISO_WIDTH : ℚ := 64

/-- Model of `const ISO_HEIGHT: f32 = 64.0`. -/
def ISO_HEIGHT : ℚ := 64

/-- Model of the runtime `Tile` struct of main.rs. -/
structure Tile where
  texture : Texture
  clip : Rectangle
  origin : Vec2 ℚ
deriving DecidableEq, Repr

/-- Model of the runtime `Map` struct of main.rs. -/
structure Map where
  tiles : List (ℤ × Tile)
  map : Fin 6 → Fin 6 → ℤ

/-- Model of HashMap indexing `m.tiles[&code]`: `none` stands for the
panic the indexing operation raises when the key is absent. -/
def Map.lookupTile (m : Map) (code : ℤ) : Option Tile :=
  (m.tiles.find? (fun p => p.1 == code)).map Prod.snd

/-- Model of `Map::from_json`.  The source reads the file, parses it with
serde and loads the texture named by `map_data.image`; those boundary
steps are outside the embedding, which therefore takes the parsed
`MapData`.  The registry entries mirror, in order, the seven
`HashMap::insert` calls of the source (all keys distinct, into an empty
map), each cloning the single loaded texture.  The source's f32 literals
(`0.0`, `64.0`, `7.0`, …) are written as the equal integer numerals of ℚ.
Note that the source never reads `map_data.tiles`, `map_data.width` or
`map_data.height`. -/
def Map.from_json (map_data : MapData) : Map :=
  let texture := Texture.new map_data.image
  let tiles : List (ℤ × Tile) :=
    [ (0, { texture := texture.clone,
            clip := Rectangle.new 0 0 64 64,
            origin := Vec2.new 0 0 }),
      (1, { texture := texture.clone,
            clip := Rectangle.new (7 * ISO_WIDTH) (3 * ISO_HEIGHT) 64 64,
            origin := Vec2.new 0 0 }),
      (2, { texture := texture.clone,
            clip := Rectangle.new 0 0 64 64,
            origin := Vec2.new 0 0 }),
      (3, { texture := texture.clone,
            clip := Rectangle.new (8 * ISO_WIDTH) (3 * ISO_HEIGHT) 64 64,
            origin := Vec2.new 0 0 }),
      (4, { texture := texture.clone,
            clip := Rectangle.new 0 0 64 64,
            origin := Vec2.new 0 0 }),
      (5, { texture := texture.clone,
            clip := Rectangle.new 0 0 64 64,
            origin := Vec2.new 0 0 }),
      (6, { texture := texture.clone,
            clip := Rectangle.new 0 0 64 64,
            origin := Vec2.new 0 0 }) ]
  { map := map_data.map,
    tiles := tiles }

/-- Model of `fn cartesian_to_isometric(Vec2<i32>) -> Vec2<f32>`:
`x` component `(x − y) as f32`, `y` component `(x + y) as f32 / 2.0`.
Both casts and the halving are exact for the values involved. -/
def cartesian_to_isometric (cartesian_position : Vec2 ℤ) : Vec2 ℚ :=
  Vec2.new
    ((cartesian_position.x - cartesian_position.y : ℤ) : ℚ)
    (((cartesian_position.x + cartesian_position.y : ℤ) : ℚ) / 2)

/-- Model of the Rust cast `as i32` applied to an f32: truncation toward
zero (the saturation at the i32 bounds is never reached here). -/
def f32_as_i32 (q : ℚ) : ℤ := if 0 ≤ q then ⌊q⌋ else ⌈q⌉

/-- Model of `fn isometric_to_cartesian(Vec2<f32>) -> Vec2<i32>`:
`(2.0 * y + x) as i32 / 2` and `(2.0 * y - x) as i32 / 2`, where the cast
truncates toward zero and `/` is Rust's truncating i32 division. -/
def isometric_to_cartesian (isometric_position : Vec2 ℚ) : Vec2 ℤ :=
  Vec2.new
    ((f32_as_i32 (2 * isometric_position.y + isometric_position.x)).tdiv 2)
    ((f32_as_i32 (2 * isometric_position.y - isometric_position.x)).tdiv 2)

/-- Model of one call to tetra's `graphics::draw`: the draw parameters the
renderer submits for one tile (texture, screen position, origin, clip). -/
structure DrawCommand where
  texture : Texture
  position : Vec2 ℚ
  origin : Vec2 ℚ
  clip : Rectangle
deriving DecidableEq, Repr

/-- Model of `Tile::draw`: computes the screen position of the cell via
`cartesian_to_isometric` and issues a draw with the tile's texture, the
position, the tile's origin and its clip rectangle. -/
def Tile.draw (t : Tile) (x y : ℤ) : DrawCommand :=
  let position := cartesian_to_isometric (Vec2.new x y)
  { texture := t.texture,
    position := position,
    origin := t.origin,
    clip := t.clip }

/-- Model of tetra's `Camera` as used by main.rs: a 2-D position and a
viewport size.  The cached matrix tetra maintains is not modelled; it is
a function of these fields. -/
structure Camera where
  position : Vec2 ℚ
  viewport_width : ℚ
  viewport_height : ℚ
deriving DecidableEq, Repr

/-- Model of `Camera::set_viewport_size`. -/
def Camera.set_viewport_size (c : Camera) (width height : ℚ) : Camera :=
  { c with viewport_width := width, viewport_height := height }

/-- Model of `Camera::update`: recomputes the cached projection matrix,
which is derived state not carried by the model, so this is the identity
on the modelled fields. -/
def Camera.update (c : Camera) : Camera := c

/-- Model of the `GameState` struct of main.rs. -/
structure GameState where
  camera : Camera
  map : Map

/-- Model of the clear color `Color::rgb(0.769, 0.812, 0.631)`. -/
def background_color : Color := Color.rgb 0.769 0.812 0.631

/-- Row-major iteration domain of the render loop:
`for row in 0..6 { for col in 0..6 { … } }`. -/
def rowMajor : List (Fin 6 × Fin 6) :=
  (List.finRange 6).flatMap (fun row => (List.finRange 6).map (fun col => (row, col)))

/-- Sequencing of an Option-valued step over a list, propagating `none`:
this is the render loop's control flow, where `none` models the panic
that aborts the frame (no later cell is drawn). -/
def drawAll {α β : Type} (f : α → Option β) : List α → Option (List β)
  | [] => some []
  | a :: l =>
    match f a with
    | none => none
    | some b => Option.map (fun bs => b :: bs) (drawAll f l)

/-- Body of the render loop for one cell `(row, col)`:
`x = (col * 32) as i32`, `y = (row * 32) as i32`,
`tile = map.tiles[&map.map[row][col]]` (panic modelled as `none`),
then `tile.draw(x, y)`. -/
def drawCell (m : Map) (cell : Fin 6 × Fin 6) : Option DrawCommand :=
  (m.lookupTile (m.map cell.1 cell.2)).map
    (fun tile => tile.draw ((cell.2 : ℕ) * 32 : ℤ) ((cell.1 : ℕ) * 32 : ℤ))

/-- Model of one rendered frame: the clear color, the camera whose matrix
is installed via `set_transform_matrix(camera.as_matrix())`, and the
ordered sequence of draw commands. -/
structure Frame where
  clear : Color
  transform : Camera
  commands : List DrawCommand
deriving DecidableEq, Repr

/-- Model of `State::draw for GameState`: clear, install the camera
transform, then draw every cell in row-major order.  `none` models a
panicked frame (a cell's tile code missing from the registry). -/
def GameState.draw (s : GameState) : Option Frame :=
  Option.map
    (fun commands =>
      { clear := background_color, transform := s.camera, commands := commands })
    (drawAll (drawCell s.map) rowMajor)

/-- Commands of the rendered frame (empty when the frame panicked). -/
def GameState.commands (s : GameState) : List DrawCommand :=
  (Option.map Frame.commands s.draw).getD []

/-- Model of the tetra events main.rs inspects: `Event::Resized { width,
height }` plus a stand-in for every other event (all ignored). -/
inductive Event where
  | resized (width height : ℤ)
  | other

/-- Model of `State::event for GameState`: on `Resized`, set the camera's
viewport size to the event's dimensions (cast to f32) and update the
camera; every other event is ignored. -/
def GameState.event (s : GameState) (e : Event) : GameState :=
  match e with
  | .resized width height =>
    { s with
      camera := ((s.camera.set_viewport_size (width : ℚ) (height : ℚ)).update) }
  | .other => s

/-! Helper lemmas about the numeric model. -/

lemma f32_as_i32_intCast (n : ℤ) : f32_as_i32 ((n : ℤ) : ℚ) = n := by
  unfold f32_as_i32
  split <;> simp

lemma floor_half (q : ℚ) : ⌊q / 2⌋ = ⌊q⌋ / 2 := by
  apply eq_of_forall_le_iff
  intro z
  rw [Int.le_floor, Int.le_ediv_iff_mul_le (by norm_num : (0:ℤ) < 2), Int.le_floor,
    le_div_iff (by norm_num : (0:ℚ) < 2)]
  push_cast
  exact Iff.rfl

lemma tdiv_f32_floor (q : ℚ) (hq : 0 ≤ q) : (f32_as_i32 q).tdiv 2 = ⌊q / 2⌋ := by
  rw [f32_as_i32, if_pos hq, Int.tdiv_eq_ediv (Int.floor_nonneg.mpr hq) (by norm_num),
    floor_half]

/-! Claim theorems for the coordinate transform. -/

/-- C4: for all integer grid coordinates, the forward transform
`cartesian_to_isometric` returns `screen_x = grid_x - grid_y` and
`screen_y = (grid_x + grid_y) / 2`. -/
theorem C4_forward_formula (grid_x grid_y : ℤ) :
    (cartesian_to_isometric (Vec2.new grid_x grid_y)).x = (grid_x : ℚ) - (grid_y : ℚ) ∧
    (cartesian_to_isometric (Vec2.new grid_x grid_y)).y = ((grid_x : ℚ) + (grid_y : ℚ)) / 2 := by
  constructor
  · show ((grid_x - grid_y : ℤ) : ℚ) = (grid_x : ℚ) - (grid_y : ℚ)
    push_cast
    ring
  · show (((grid_x + grid_y : ℤ) : ℚ)) / 2 = ((grid_x : ℚ) + (grid_y : ℚ)) / 2
    push_cast
    ring

/-- C2: for all integer grid coordinates with −1000 ≤ x, y ≤ 1000, applying
the forward transform and then the inverse returns the original pair. -/
theorem C2_round_trip (x y : ℤ) (hx₁ : -1000 ≤ x) (hx₂ : x ≤ 1000)
    (hy₁ : -1000 ≤ y) (hy₂ : y ≤ 1000) :
    isometric_to_cartesian (cartesian_to_isometric (Vec2.new x y)) = Vec2.new x y := by
  have h₁ : (2 : ℚ) * (((x + y : ℤ) : ℚ) / 2) + ((x - y : ℤ) : ℚ) = ((2 * x : ℤ) : ℚ) := by
    push_cast
    ring
  have h₂ : (2 : ℚ) * (((x + y : ℤ) : ℚ) / 2) - ((x - y : ℤ) : ℚ) = ((2 * y : ℤ) : ℚ) := by
    push_cast
    ring
  simp only [isometric_to_cartesian, cartesian_to_isometric, Vec2.new]
  rw [h₁, h₂, f32_as_i32_intCast, f32_as_i32_intCast,
    Int.mul_tdiv_cancel_left x (by norm_num), Int.mul_tdiv_cancel_left y (by norm_num)]

/-- C2 witness: the round trip at the concrete in-range pair (3, −5). -/
theorem C2_witness :
    ((-1000 : ℤ) ≤ 3 ∧ (3 : ℤ) ≤ 1000 ∧ (-1000 : ℤ) ≤ -5 ∧ (-5 : ℤ) ≤ 1000) ∧
    isometric_to_cartesian (cartesian_to_isometric (Vec2.new 3 (-5))) = Vec2.new 3 (-5) :=
  ⟨by decide, C2_round_trip 3 (-5) (by decide) (by decide) (by decide) (by decide)⟩

/-- C3 counterexample: at screen coordinates (−1, 0) the code returns
(trunc(−1) tdiv 2, trunc(1) tdiv 2) = (0, 0), whereas the floor-based
formula of the claim gives (⌊−1/2⌋, ⌊1/2⌋) = (−1, 0). -/
theorem C3_counterexample :
    isometric_to_cartesian (Vec2.new (-1 : ℚ) 0) ≠
      Vec2.new ⌊(2 * (0 : ℚ) + (-1)) / 2⌋ ⌊(2 * (0 : ℚ) - (-1)) / 2⌋ := by
  have f₁ : (⌊(2 * (0 : ℚ) + (-1)) / 2⌋ : ℤ) = -1 := by
    have e : (2 * (0 : ℚ) + (-1)) / 2 = ((-1 : ℤ) : ℚ) / ((2 : ℕ) : ℚ) := by norm_num
    rw [e, Rat.floor_intCast_div_natCast]
    decide
  have f₂ : (⌊(2 * (0 : ℚ) - (-1)) / 2⌋ : ℤ) = 0 := by
    have e : (2 * (0 : ℚ) - (-1)) / 2 = ((1 : ℤ) : ℚ) / ((2 : ℕ) : ℚ) := by norm_num
    rw [e, Rat.floor_intCast_div_natCast]
    decide
  have fl : isometric_to_cartesian (Vec2.new (-1 : ℚ) 0) = Vec2.new 0 0 := by
    simp only [isometric_to_cartesian, Vec2.new]
    rw [show (2 * (0 : ℚ) + (-1)) = ((-1 : ℤ) : ℚ) by norm_num,
      show (2 * (0 : ℚ) - (-1)) = ((1 : ℤ) : ℚ) by norm_num,
      f32_as_i32_intCast, f32_as_i32_intCast]
    decide
  rw [fl, f₁, f₂]
  decide

/-- C3 amended: the inverse transform truncates toward zero (f32→i32 cast
followed by truncating integer division), which agrees with the claim's
floor-based formula exactly when both intermediate values
2·screen_y + screen_x and 2·screen_y − screen_x are nonnegative; for
negative intermediates it differs (see the counterexample). -/
theorem C3_amended_trunc_eq_floor_on_nonneg (screen_x screen_y : ℚ)
    (h₁ : 0 ≤ 2 * screen_y + screen_x) (h₂ : 0 ≤ 2 * screen_y - screen_x) :
    isometric_to_cartesian (Vec2.new screen_x screen_y) =
      Vec2.new ⌊(2 * screen_y + screen_x) / 2⌋ ⌊(2 * screen_y - screen_x) / 2⌋ := by
  simp only [isometric_to_cartesian, Vec2.new]
  rw [tdiv_f32_floor _ h₁, tdiv_f32_floor _ h₂]

/-- C3 witness: the amended statement at the concrete screen point (1, 1). -/
theorem C3_witness :
    (0 ≤ 2 * (1 : ℚ) + 1) ∧ (0 ≤ 2 * (1 : ℚ) - 1) ∧
    isometric_to_cartesian (Vec2.new (1 : ℚ) 1) =
      Vec2.new ⌊(2 * (1 : ℚ) + 1) / 2⌋ ⌊(2 * (1 : ℚ) - 1) / 2⌋ :=
  ⟨by norm_num, by norm_num,
    C3_amended_trunc_eq_floor_on_nonneg 1 1 (by norm_num) (by norm_num)⟩

/-! Helper lemmas about the render loop. -/

lemma drawAll_isSome_spec {α β : Type} (f : α → Option β) :
    ∀ l : List α, (∀ a ∈ l, (f a).isSome = true) →
      ∃ ys : List β, drawAll f l = some ys ∧ ys.length = l.length ∧
        ∀ i : ℕ, ys.get? i = (l.get? i).bind f
  | [], _ => ⟨[], rfl, rfl, fun i => by simp⟩
  | a :: l, h => by
    obtain ⟨b, hb⟩ := Option.isSome_iff_exists.mp (h a (List.mem_cons_self a l))
    obtain ⟨ys, h₁, h₂, h₃⟩ :=
      drawAll_isSome_spec f l (fun x hx => h x (List.mem_cons_of_mem a hx))
    refine ⟨b :: ys, ?_, ?_, ?_⟩
    · simp [drawAll, hb, h₁]
    · simp [h₂]
    · intro i
      cases i with
      | zero => simp [hb]
      | succ n => simpa using h₃ n

lemma drawAll_some_get {α β : Type} (f : α → Option β) :
    ∀ (l : List α) (ys : List β), drawAll f l = some ys →
      ∀ i : ℕ, ys.get? i = (l.get? i).bind f
  | [], ys, h => by
    cases h
    intro i
    simp
  | a :: l, ys, h => by
    dsimp [drawAll] at h
    cases hfa : f a with
    | none =>
      rw [hfa] at h
      cases h
    | some b =>
      rw [hfa] at h
      cases hdl : drawAll f l with
      | none =>
        rw [hdl] at h
        cases h
      | some zs =>
        rw [hdl] at h
        have hys : b :: zs = ys := by simpa using h
        subst hys
        intro i
        cases i with
        | zero => simp [hfa]
        | succ n => simpa using drawAll_some_get f l zs hdl n

lemma drawAll_none_of_mem {α β : Type} (f : α → Option β) (l : List α) :
    ∀ a : α, a ∈ l → f a = none → drawAll f l = none := by
  induction l with
  | nil =>
    intro a h
    cases h
  | cons b l ih =>
    intro a h hfa
    rcases List.mem_cons.mp h with rfl | h'
    · simp [drawAll, hfa]
    · dsimp [drawAll]
      cases hfb : f b with
      | none => rfl
      | some c =>
        rw [ih a h' hfa]
        rfl

lemma rowMajor_length : rowMajor.length = 36 := by decide

lemma rowMajor_get : ∀ r c : Fin 6, rowMajor.get? ((r : ℕ) * 6 + (c : ℕ)) = some (r, c) := by
  decide

lemma rowMajor_mem : ∀ r c : Fin 6, (r, c) ∈ rowMajor := by
  decide

/-! Concrete artifacts used by witnesses and counterexamples. -/

/-- Camera with the constants of `GameState::new`: position (32, 48),
viewport 640 × 480. -/
def camera0 : Camera :=
  { position := Vec2.new 32 48, viewport_width := 640, viewport_height := 480 }

/-- A 6 × 6 layer grid whose border uses codes 1–6 and whose interior is
the floor code 0, in the style of the reference map. -/
def grid0 : Fin 6 → Fin 6 → ℤ :=
  ![![1, 2, 2, 2, 2, 3],
    ![6, 0, 0, 0, 0, 4],
    ![6, 0, 0, 0, 0, 4],
    ![6, 0, 0, 0, 0, 4],
    ![6, 0, 0, 0, 0, 4],
    ![1, 5, 5, 5, 5, 3]]

/-- A map description with an empty `tiles` mapping and matching
dimensions. -/
def mapData0 : MapData :=
  { image := "resources/tileset.png", tiles := [], width := 6, height := 6, map := grid0 }

/-- Game state built from `mapData0`: every cell code resolves. -/
def gameState0 : GameState := { camera := camera0, map := Map.from_json mapData0 }

/-- A layer grid whose cell (0, 0) holds the dangling code 7 (absent from
the registry); all other cells hold the floor code 0. -/
def grid5 : Fin 6 → Fin 6 → ℤ :=
  ![![7, 0, 0, 0, 0, 0],
    ![0, 0, 0, 0, 0, 0],
    ![0, 0, 0, 0, 0, 0],
    ![0, 0, 0, 0, 0, 0],
    ![0, 0, 0, 0, 0, 0],
    ![0, 0, 0, 0, 0, 0]]

/-- Map description whose grid references the dangling code 7. -/
def mapData5 : MapData := { mapData0 with map := grid5 }

/-- Game state whose grid references the dangling code 7. -/
def gameState5 : GameState := { camera := camera0, map := Map.from_json mapData5 }

/-- A tile definition (clip 0 0 1 1, origin (5, 5)) unlike every hardcoded
registry entry. -/
def tileData1 : TileData := { clip := Rectangle.new 0 0 1 1, origin := ⟨5, 5⟩ }

/-- Map description whose `tiles` mapping assigns `tileData1` to code 1. -/
def mapData1 : MapData := { mapData0 with tiles := [(1, tileData1)] }

/-- Map description whose `width`/`height` fields (3 and 99) disagree with
the 6 × 6 shape of the layer array. -/
def mapData6 : MapData := { mapData0 with width := 3, height := 99 }

/-- Head entry of the registry built from `mapData0` (code 0). -/
def registryHead : ℤ × Tile :=
  (0, { texture := Texture.clone (Texture.new mapData0.image),
        clip := Rectangle.new 0 0 64 64,
        origin := Vec2.new 0 0 })

/-! Claim theorems for the map loader. -/

/-- C1 counterexample: the description `mapData1` assigns code 1 the clip
rectangle (0, 0, 1, 1), but the registry built by `Map::from_json` maps
code 1 to the hardcoded clip (7·64, 3·64, 64, 64): resolving the code does
not return the definition from the description. -/
theorem C1_counterexample :
    ((Map.from_json mapData1).lookupTile 1).map Tile.clip =
      some (Rectangle.new (7 * ISO_WIDTH) (3 * ISO_HEIGHT) 64 64) ∧
    (mapData1.tiles.find? (fun p => p.1 == 1)).map (fun p => p.2.clip) =
      some (Rectangle.new 0 0 1 1) ∧
    Rectangle.new (7 * ISO_WIDTH) (3 * ISO_HEIGHT) 64 64 ≠ Rectangle.new 0 0 1 1 := by
  refine ⟨rfl, rfl, ?_⟩
  intro hcontra
  have hx : (7 : ℚ) * ISO_WIDTH = 0 := congrArg Rectangle.x hcontra
  norm_num [ISO_WIDTH] at hx

/-- C1 amended: `Map::from_json` never reads the description's `tiles`
mapping; the loaded map (registry and grid) is unchanged under any
replacement of that mapping, the registry being the fixed seven-entry
hardcoded table. -/
theorem C1_amended_registry_ignores_description_tiles (map_data : MapData)
    (ts : List (ℤ × TileData)) :
    Map.from_json { map_data with tiles := ts } = Map.from_json map_data := rfl

/-- C6 counterexample: loading `mapData6`, whose `width`/`height` fields
(3, 99) disagree with the 6 × 6 layer array, succeeds — it produces a map
carrying the description's grid, and a frame renders from it — instead of
failing with a dimension-mismatch error. -/
theorem C6_counterexample :
    mapData6.width = 3 ∧ mapData6.height = 99 ∧
    (Map.from_json mapData6).map = mapData6.map ∧
    (GameState.mk camera0 (Map.from_json mapData6)).draw.isSome = true :=
  ⟨rfl, rfl, rfl, by decide⟩

/-- C6 amended: `Map::from_json` performs no dimension validation at all:
its result is unchanged under any replacement of the `width` and `height`
fields (the 6 × 6 layer shape is enforced by the parsed array type, not by
a check against those fields). -/
theorem C6_amended_dimensions_unchecked (map_data : MapData) (w h : ℕ) :
    Map.from_json { map_data with width := w, height := h } = Map.from_json map_data := rfl

/-- C10: after `Map::from_json`, the registry consists of exactly the seven
codes 0–6 in insertion order, each with a 64 × 64 clip rectangle and
origin (0, 0), and each sharing the single texture loaded from the
description's `image` field — for every description, whatever its `tiles`
mapping. -/
theorem C10_hardcoded_registry (map_data : MapData) :
    ((Map.from_json map_data).tiles.map Prod.fst = [0, 1, 2, 3, 4, 5, 6]) ∧
    ∀ p ∈ (Map.from_json map_data).tiles,
      p.2.clip.width = 64 ∧ p.2.clip.height = 64 ∧
      p.2.origin = Vec2.new 0 0 ∧ p.2.texture = Texture.new map_data.image := by
  refine ⟨rfl, ?_⟩
  intro p hp
  simp only [Map.from_json, List.mem_cons, List.not_mem_nil, or_false] at hp
  rcases hp with rfl | rfl | rfl | rfl | rfl | rfl | rfl <;> exact ⟨rfl, rfl, rfl, rfl⟩

/-- C10 witness: the registry shape at the concrete description `mapData0`,
and the stated properties at its head entry (code 0). -/
theorem C10_witness :
    ((Map.from_json mapData0).tiles.map Prod.fst = [0, 1, 2, 3, 4, 5, 6]) ∧
    (registryHead.2.clip.width = 64 ∧ registryHead.2.clip.height = 64 ∧
      registryHead.2.origin = Vec2.new 0 0 ∧
      registryHead.2.texture = Texture.new mapData0.image) :=
  ⟨(C10_hardcoded_registry mapData0).1,
    (C10_hardcoded_registry mapData0).2 registryHead (List.mem_cons_self _ _)⟩

/-! Claim theorems for the renderer. -/

/-- C5 counterexample: the grid of `gameState5` references code 7, which
has no registry entry; rendering the frame panics (modelled as `none`) —
there is no `UnknownTileCode` error value and no fallback tile. -/
theorem C5_counterexample :
    gameState5.map.lookupTile 7 = none ∧ gameState5.draw = none := by
  exact ⟨by decide, by decide⟩

/-- C5 amended: when any grid cell's code has no registry entry, the
HashMap indexing in the render loop panics, aborting the frame (modelled
as `draw = none`): the failure is a panic, not a recoverable
`UnknownTileCode` error value, and there is no silent fallback tile. -/
theorem C5_amended_missing_code_panics (s : GameState) (r c : Fin 6)
    (h : s.map.lookupTile (s.map.map r c) = none) : s.draw = none := by
  have hcell : drawCell s.map (r, c) = none := by
    dsimp [drawCell]
    rw [h]
    rfl
  dsimp [GameState.draw]
  rw [drawAll_none_of_mem (drawCell s.map) rowMajor (r, c) (rowMajor_mem r c) hcell]
  rfl

/-- C5 witness: the amended statement at the concrete state `gameState5`,
whose cell (0, 0) holds the unregistered code 7. -/
theorem C5_witness :
    gameState5.map.lookupTile (gameState5.map.map 0 0) = none ∧
    gameState5.draw = none :=
  ⟨by decide, C5_amended_missing_code_panics gameState5 0 0 (by decide)⟩

/-- C7: for every state in which each cell's code resolves in the
registry, one frame emits exactly 36 draw commands, one per cell, and the
command at row-major index r·6+c has draw position
`cartesian_to_isometric (col·32, row·32)`. -/
theorem C7_thirty_six_draws (s : GameState)
    (h : ∀ r c : Fin 6, (s.map.lookupTile (s.map.map r c)).isSome = true) :
    ∃ commands : List DrawCommand,
      s.draw = some { clear := background_color, transform := s.camera,
                      commands := commands } ∧
      commands.length = 36 ∧
      ∀ r c : Fin 6, ∃ cmd : DrawCommand,
        commands.get? ((r : ℕ) * 6 + (c : ℕ)) = some cmd ∧
        cmd.position =
          cartesian_to_isometric (Vec2.new ((c : ℕ) * 32 : ℤ) ((r : ℕ) * 32 : ℤ)) := by
  have hall : ∀ cell ∈ rowMajor, (drawCell s.map cell).isSome = true := by
    intro cell _
    have hc := h cell.1 cell.2
    dsimp [drawCell]
    cases hl : s.map.lookupTile (s.map.map cell.1 cell.2) with
    | none => rw [hl] at hc; cases hc
    | some tile => rfl
  obtain ⟨ys, h₁, h₂, h₃⟩ := drawAll_isSome_spec (drawCell s.map) rowMajor hall
  refine ⟨ys, ?_, ?_, ?_⟩
  · dsimp [GameState.draw]
    rw [h₁]
    rfl
  · rw [h₂, rowMajor_length]
  · intro r c
    have hg := h₃ ((r : ℕ) * 6 + (c : ℕ))
    rw [rowMajor_get r c] at hg
    obtain ⟨tile, ht⟩ := Option.isSome_iff_exists.mp (h r c)
    refine ⟨tile.draw ((c : ℕ) * 32 : ℤ) ((r : ℕ) * 32 : ℤ), ?_, rfl⟩
    rw [hg]
    show drawCell s.map (r, c) = _
    dsimp [drawCell]
    rw [ht]
    rfl

/-- C7 witness: every code of `gameState0` resolves, and its frame has the
stated shape. -/
theorem C7_witness :
    (∀ r c : Fin 6, (gameState0.map.lookupTile (gameState0.map.map r c)).isSome = true) ∧
    (∃ commands : List DrawCommand,
      gameState0.draw = some { clear := background_color, transform := gameState0.camera,
                               commands := commands } ∧
      commands.length = 36 ∧
      ∀ r c : Fin 6, ∃ cmd : DrawCommand,
        commands.get? ((r : ℕ) * 6 + (c : ℕ)) = some cmd ∧
        cmd.position =
          cartesian_to_isometric (Vec2.new ((c : ℕ) * 32 : ℤ) ((r : ℕ) * 32 : ℤ))) :=
  ⟨by decide, C7_thirty_six_draws gameState0 (by decide)⟩

/-- C8: rendering is a pure function of the state — two invocations on the
same (camera, registry, grid) yield the identical frame — and within a
successful frame the ordered command sequence is row-major: the command at
index r·6+c is exactly the draw of cell (r, c). -/
theorem C8_deterministic_row_major (s : GameState) (h : s.draw.isSome = true) :
    s.draw = s.draw ∧
    ∀ r c : Fin 6,
      s.commands.get? ((r : ℕ) * 6 + (c : ℕ)) =
        (s.map.lookupTile (s.map.map r c)).map
          (fun tile => tile.draw ((c : ℕ) * 32 : ℤ) ((r : ℕ) * 32 : ℤ)) := by
  refine ⟨rfl, ?_⟩
  intro r c
  cases hdl : drawAll (drawCell s.map) rowMajor with
  | none =>
    dsimp [GameState.draw] at h
    rw [hdl] at h
    simp at h
  | some ys =>
    have hcmd : s.commands = ys := by
      dsimp [GameState.commands, GameState.draw]
      rw [hdl]
      rfl
    have hget := drawAll_some_get (drawCell s.map) rowMajor ys hdl ((r : ℕ) * 6 + (c : ℕ))
    rw [rowMajor_get r c] at hget
    rw [hcmd, hget]
    rfl

/-- C8 witness: the row-major characterization at the concrete state
`gameState0` and cell (1, 2). -/
theorem C8_witness :
    gameState0.draw.isSome = true ∧
    gameState0.commands.get? (((1 : Fin 6) : ℕ) * 6 + ((2 : Fin 6) : ℕ)) =
      (gameState0.map.lookupTile (gameState0.map.map 1 2)).map
        (fun tile => tile.draw (((2 : Fin 6) : ℕ) * 32 : ℤ) (((1 : Fin 6) : ℕ) * 32 : ℤ)) :=
  ⟨by decide, (C8_deterministic_row_major gameState0 (by decide)).2 1 2⟩

/-- C9: handling a resize event updates only the camera's viewport size:
the map (registry and grid) and the camera position are unchanged, and the
command sequence of the next frame — in particular every draw position —
is identical to the one before the resize. -/
theorem C9_resize_only_camera (s : GameState) (w h : ℤ) :
    (s.event (Event.resized w h)).map = s.map ∧
    (s.event (Event.resized w h)).camera.position = s.camera.position ∧
    (s.event (Event.resized w h)).camera.viewport_width = (w : ℚ) ∧
    (s.event (Event.resized w h)).camera.viewport_height = (h : ℚ) ∧
    Option.map Frame.commands ((s.event (Event.resized w h)).draw) =
      Option.map Frame.commands s.draw := by
  refine ⟨rfl, rfl, rfl, rfl, ?_⟩
  dsimp [GameState.draw, GameState.event, Camera.update, Camera.set_viewport_size]
  cases hdl : drawAll (drawCell s.map) rowMajor <;> simp [hdl]

end IsoRust
